import Mathlib

/-!
A verification development for the `shovel` pipeline
(`src/shovel/agent.py`, `src/shovel/cli.py`, `src/shovel/utils.py`).

The Python sources are shallowly embedded as executable Lean definitions:
Python `dict`s become insertion-ordered association lists, JSON values
become the inductive `Json`, the standard-library `json` module
(`json.loads`, `JSONDecoder.raw_decode`) and the two `re.search` patterns
of `_parse_output_from_final_assistant_text` are modelled by executable
functions over character lists, the agent event stream becomes a list of
events with an explicit "runtime raised" event, and Python exceptions that
can escape repository code are modelled with `Except PyErr`.
File IO is modelled as ideal (writes never fail); trajectory-log record
payloads are abstracted to their record kind, which is all the claims
inspect.
-/

/-- Opening curly brace character (kept out of literals for hygiene). -/
def lbrace : Char := Char.ofNat 123

/-- Closing curly brace character. -/
def rbrace : Char := Char.ofNat 125

/-- ASCII lower-casing, as used by case-insensitive regex matching on the
ASCII literals appearing in `agent.py`'s patterns. -/
def asciiLower (c : Char) : Char :=
  if 'A' ≤ c ∧ c ≤ 'Z' then Char.ofNat (c.toNat + 32) else c

/-- Python whitespace for `str.strip` / `str.rstrip` and the regex class
`\s`, restricted to the ASCII range. -/
def isPyWs (c : Char) : Bool :=
  c = ' ' || c = '\t' || c = '\n' || c = '\r' || c = Char.ofNat 11 || c = Char.ofNat 12

/-- Case-sensitive literal match: returns the remainder after the literal. -/
def matchLit : List Char → List Char → Option (List Char)
  | [], cs => some cs
  | _ :: _, [] => none
  | l :: ls, c :: cs => if l = c then matchLit ls cs else none

/-- Case-insensitive (ASCII) literal match. -/
def matchLitCI : List Char → List Char → Option (List Char)
  | [], cs => some cs
  | _ :: _, [] => none
  | l :: ls, c :: cs => if asciiLower l = asciiLower c then matchLitCI ls cs else none

/-- Skip `\s*` (greedy; every use site is followed by a non-whitespace
literal, so greedy matching never needs to backtrack). -/
def skipWsL (cs : List Char) : List Char := cs.dropWhile isPyWs

/-- Python `str.strip()` (ASCII whitespace). -/
def pyStrip (s : String) : String :=
  String.mk (((s.data.dropWhile isPyWs).reverse.dropWhile isPyWs).reverse)

/-- Python `str.rstrip()` (ASCII whitespace). -/
def pyRstrip (s : String) : String :=
  String.mk ((s.data.reverse.dropWhile isPyWs).reverse)

/-- Helper for Python's substring containment `needle in hay` on strings:
true when `needle` occurs as a contiguous sublist. -/
def strContainsL (needle : List Char) : List Char → Bool
  | [] => needle.isEmpty
  | c :: rest => needle.isPrefixOf (c :: rest) || strContainsL needle rest

/-- Python `needle in hay` for strings. -/
def strContains (hay needle : String) : Bool :=
  strContainsL needle.data hay.data

/-- Python `hay.startswith(pre)`. -/
def strStartsLit (pre hay : String) : Bool :=
  (matchLit pre.data hay.data).isSome

/-- JSON values as produced by Python's `json.loads`.  Numbers keep their
source lexeme (no claim depends on numeric semantics); objects are
insertion-ordered key/value lists with unique keys, mirroring `dict`. -/
inductive Json where
  | null : Json
  | bool (b : Bool) : Json
  | num (lexeme : String) : Json
  | str (s : String) : Json
  | arr (xs : List Json) : Json
  | obj (kvs : List (String × Json)) : Json
  deriving Repr

/-- Python `dict` lookup on the association-list model. -/
def pyLookup : List (String × Json) → String → Option Json
  | [], _ => none
  | (k', v) :: t, k => if k' = k then some v else pyLookup t k

/-- Python `k in d` for dicts. -/
def pyHasKey (m : List (String × Json)) (k : String) : Bool :=
  (pyLookup m k).isSome

/-- Python `d.get(k, default)`. -/
def pyGet (m : List (String × Json)) (k : String) (default : Json) : Json :=
  (pyLookup m k).getD default

/-- Python `d[k] = v`: replaces the value in place when the key exists
(keeping its position), otherwise appends. -/
def pyInsert : List (String × Json) → String → Json → List (String × Json)
  | [], k, v => [(k, v)]
  | (k', v') :: t, k, v => if k' = k then (k, v) :: t else (k', v') :: pyInsert t k v

/-! ### A model of Python's `json` module

`agent.py` calls `json.loads` and `json.JSONDecoder().raw_decode`.  The
grammar below follows CPython's `json` decoder in its default strict
configuration: objects, arrays, strings with escapes (unescaped control
characters rejected; a `\u` escape must denote a scalar value or a valid
surrogate pair — Python's tolerance for lone surrogates is not
representable in `Char` and is modelled as a parse failure), numbers per
the decoder's regex (keeping their lexeme), `true`/`false`/`null`, and the
constants `NaN`/`Infinity`/`-Infinity`.  Recursion is fuelled; callers
supply fuel strictly larger than any possible number of recursive calls
for the given input. -/

/-- Hexadecimal digit value. -/
def hexVal (c : Char) : Option Nat :=
  if '0' ≤ c ∧ c ≤ '9' then some (c.toNat - '0'.toNat)
  else if 'a' ≤ c ∧ c ≤ 'f' then some (c.toNat - 'a'.toNat + 10)
  else if 'A' ≤ c ∧ c ≤ 'F' then some (c.toNat - 'A'.toNat + 10)
  else none

/-- Exactly four hex digits. -/
def parseHex4 : List Char → Option (Nat × List Char)
  | a :: b :: c :: d :: rest =>
    match hexVal a, hexVal b, hexVal c, hexVal d with
    | some x, some y, some z, some w => some (((x * 16 + y) * 16 + z) * 16 + w, rest)
    | _, _, _, _ => none
  | _ => none

/-- JSON string body after the opening quote: accumulates characters until
the closing quote, handling escapes.  Mirrors Python's strict scanner. -/
def parseStrBody : Nat → List Char → List Char → Option (List Char × List Char)
  | 0, _, _ => none
  | Nat.succ fuel, acc, cs =>
    match cs with
    | [] => none
    | c :: rest =>
      if c = '"' then some (acc.reverse, rest)
      else if c = '\\' then
        match rest with
        | [] => none
        | e :: rest2 =>
          if e = '"' then parseStrBody fuel ('"' :: acc) rest2
          else if e = '\\' then parseStrBody fuel ('\\' :: acc) rest2
          else if e = '/' then parseStrBody fuel ('/' :: acc) rest2
          else if e = 'b' then parseStrBody fuel (Char.ofNat 8 :: acc) rest2
          else if e = 'f' then parseStrBody fuel (Char.ofNat 12 :: acc) rest2
          else if e = 'n' then parseStrBody fuel ('\n' :: acc) rest2
          else if e = 'r' then parseStrBody fuel ('\r' :: acc) rest2
          else if e = 't' then parseStrBody fuel ('\t' :: acc) rest2
          else if e = 'u' then
            match parseHex4 rest2 with
            | none => none
            | some (n, rest3) =>
              if 0xD800 ≤ n ∧ n ≤ 0xDBFF then
                match rest3 with
                | u1 :: u2 :: rest4 =>
                  if u1 = '\\' ∧ u2 = 'u' then
                    match parseHex4 rest4 with
                    | none => none
                    | some (m, rest5) =>
                      if 0xDC00 ≤ m ∧ m ≤ 0xDFFF then
                        let code := 0x10000 + (n - 0xD800) * 0x400 + (m - 0xDC00)
                        if code.isValidChar then
                          parseStrBody fuel (Char.ofNat code :: acc) rest5
                        else none
                      else none
                  else none
                | _ => none
              else if n.isValidChar then parseStrBody fuel (Char.ofNat n :: acc) rest3
              else none
          else none
      else if c.toNat < 0x20 then none
      else parseStrBody fuel (c :: acc) rest

/-- Integer part of a JSON number: `-?(0|[1-9][0-9]*)`. -/
def lexIntPart (cs : List Char) : Option (List Char × List Char) :=
  let core : List Char → Option (List Char × List Char) := fun ds =>
    match ds with
    | [] => none
    | d :: rest =>
      if d = '0' then some ([d], rest)
      else if '1' ≤ d ∧ d ≤ '9' then
        some (d :: rest.takeWhile Char.isDigit, rest.dropWhile Char.isDigit)
      else none
  match cs with
  | '-' :: rest => (core rest).map (fun p => ('-' :: p.1, p.2))
  | _ => core cs

/-- Optional fraction `(\.[0-9]+)?`; consumes nothing when absent. -/
def lexFracPart (cs : List Char) : List Char × List Char :=
  match cs with
  | '.' :: d :: rest =>
    if d.isDigit then
      ('.' :: d :: rest.takeWhile Char.isDigit, rest.dropWhile Char.isDigit)
    else ([], cs)
  | _ => ([], cs)

/-- Optional exponent `([eE][-+]?[0-9]+)?`; consumes nothing when absent. -/
def lexExpPart (cs : List Char) : List Char × List Char :=
  match cs with
  | e :: rest =>
    if e = 'e' ∨ e = 'E' then
      let (sign, rest2) :=
        match rest with
        | s :: r2 => if s = '+' ∨ s = '-' then ([s], r2) else (([] : List Char), rest)
        | [] => (([] : List Char), rest)
      match rest2 with
      | d :: _ =>
        if d.isDigit then
          (e :: sign ++ rest2.takeWhile Char.isDigit, rest2.dropWhile Char.isDigit)
        else ([], cs)
      | [] => ([], cs)
    else ([], cs)
  | [] => ([], cs)

/-- JSON number per the decoder's `NUMBER_RE`, keeping the lexeme. -/
def parseNum (cs : List Char) : Option (Json × List Char) :=
  match lexIntPart cs with
  | none => none
  | some (ip, rest) =>
    let (fp, rest2) := lexFracPart rest
    let (ep, rest3) := lexExpPart rest2
    some (Json.num (String.mk (ip ++ fp ++ ep)), rest3)

mutual

/-- A JSON value starting exactly at the head of the input (no leading
whitespace skipped), as in `JSONDecoder.raw_decode`'s scanner. -/
def parseValue : Nat → List Char → Option (Json × List Char)
  | 0, _ => none
  | Nat.succ fuel, cs =>
    match cs with
    | [] => none
    | c :: rest =>
      if c = lbrace then parseObjBody fuel true (skipWsL rest) []
      else if c = '[' then parseArrBody fuel true (skipWsL rest) []
      else if c = '"' then
        (parseStrBody (rest.length + 1) [] rest).map
          (fun p => (Json.str (String.mk p.1), p.2))
      else if c = 't' then (matchLit ['r', 'u', 'e'] rest).map (fun r => (Json.bool true, r))
      else if c = 'f' then
        (matchLit ['a', 'l', 's', 'e'] rest).map (fun r => (Json.bool false, r))
      else if c = 'n' then (matchLit ['u', 'l', 'l'] rest).map (fun r => (Json.null, r))
      else if c = 'N' then (matchLit ['a', 'N'] rest).map (fun r => (Json.num "NaN", r))
      else if c = 'I' then
        (matchLit ['n', 'f', 'i', 'n', 'i', 't', 'y'] rest).map
          (fun r => (Json.num "Infinity", r))
      else if c = '-' ∧ (matchLit ['I', 'n', 'f', 'i', 'n', 'i', 't', 'y'] rest).isSome then
        (matchLit ['I', 'n', 'f', 'i', 'n', 'i', 't', 'y'] rest).map
          (fun r => (Json.num "-Infinity", r))
      else if c = '-' ∨ c.isDigit then parseNum (c :: rest)
      else none

/-- Object members after `{` (whitespace already skipped).  `first` is true
when no member has been parsed yet, so `}` may close an empty object; after
a comma a key string is mandatory.  Members accumulate with `dict`
semantics (`pyInsert`: duplicate keys overwrite in place). -/
def parseObjBody : Nat → Bool → List Char → List (String × Json) →
    Option (Json × List Char)
  | 0, _, _, _ => none
  | Nat.succ fuel, first, cs, acc =>
    match cs with
    | [] => none
    | c :: rest =>
      if first ∧ c = rbrace then some (Json.obj acc, rest)
      else if c = '"' then
        match parseStrBody (rest.length + 1) [] rest with
        | none => none
        | some (keyChars, rest2) =>
          match skipWsL rest2 with
          | ':' :: rest4 =>
            match parseValue fuel (skipWsL rest4) with
            | none => none
            | some (v, rest5) =>
              let acc2 := pyInsert acc (String.mk keyChars) v
              match skipWsL rest5 with
              | c2 :: rest7 =>
                if c2 = rbrace then some (Json.obj acc2, rest7)
                else if c2 = ',' then parseObjBody fuel false (skipWsL rest7) acc2
                else none
              | [] => none
          | _ => none
      else none

/-- Array elements after `[` (whitespace already skipped). -/
def parseArrBody : Nat → Bool → List Char → List Json → Option (Json × List Char)
  | 0, _, _, _ => none
  | Nat.succ fuel, first, cs, acc =>
    match cs with
    | [] => none
    | c :: rest =>
      if first ∧ c = ']' then some (Json.arr acc.reverse, rest)
      else
        match parseValue fuel (c :: rest) with
        | none => none
        | some (v, rest2) =>
          match skipWsL rest2 with
          | c2 :: rest4 =>
            if c2 = ']' then some (Json.arr (v :: acc).reverse, rest4)
            else if c2 = ',' then parseArrBody fuel false (skipWsL rest4) (v :: acc)
            else none
          | [] => none

end

/-- `json.JSONDecoder().raw_decode(s)`: parse one value at position 0 and
return it with the unconsumed remainder; trailing text is allowed. -/
def raw_decode (cs : List Char) : Option (Json × List Char) :=
  parseValue (2 * cs.length + 4) cs

/-- `json.loads(s)`: skip surrounding whitespace; the whole input must be
consumed. -/
def json_loads (s : String) : Option Json :=
  let cs := skipWsL s.data
  match parseValue (2 * cs.length + 4) cs with
  | some (v, rest) => if skipWsL rest = [] then some v else none
  | none => none

/-! ### A model of the two `re.search` patterns in `agent.py`

`_parse_output_from_final_assistant_text` uses two patterns, compiled with
`re.DOTALL | re.IGNORECASE`:

  `<SHOVEL_OUTPUT_JSON>\s*` ` ```json ` `\s*(\{.*?\})\s*` ` ``` ` `\s*</SHOVEL_OUTPUT_JSON>`
  ` ```json ` `\s*(\{.*?\})\s*` ` ``` `

Both are a sequence of case-insensitive literals separated by `\s*` around
a lazily-matched braced group.  `re.search` returns the leftmost match;
at a given start the lazy `.*?` takes the shortest body whose following
`\}` is succeeded by the tail literals.  Since every literal begins with a
non-whitespace character, greedy `\s*` never needs to backtrack, so it is
modelled by `skipWsL`. -/

/-- Match the open literals in order, each followed by `\s*`. -/
def matchOpenLits : List (List Char) → List Char → Option (List Char)
  | [], cs => some cs
  | l :: ls, cs =>
    match matchLitCI l cs with
    | some cs2 => matchOpenLits ls (skipWsL cs2)
    | none => none

/-- Match the tail literals, each preceded by `\s*`. -/
def matchTailSeq : List (List Char) → List Char → Bool
  | [], _ => true
  | l :: ls, cs =>
    match matchLitCI l (skipWsL cs) with
    | some cs2 => matchTailSeq ls cs2
    | none => false

/-- Lazy body scan for `(\{.*?\})`: the opening brace is already consumed;
find the shortest body such that the character after it is a closing brace
followed by the tail literals, and return the whole braced group. -/
def lazyBody (tailLits : List (List Char)) : List Char → List Char → Option (List Char)
  | _, [] => none
  | acc, c :: rest =>
    if c = rbrace ∧ matchTailSeq tailLits rest then
      some (lbrace :: (acc.reverse ++ [rbrace]))
    else lazyBody tailLits (c :: acc) rest

/-- Attempt the whole pattern anchored at the head of the input, returning
the captured group. -/
def matchWrappedAt (openLits tailLits : List (List Char)) (cs : List Char) :
    Option (List Char) :=
  match matchOpenLits openLits cs with
  | some cs2 =>
    match cs2 with
    | c :: rest => if c = lbrace then lazyBody tailLits [] rest else none
    | [] => none
  | none => none

/-- `re.search`: try each start position left to right. -/
def searchWrapped (openLits tailLits : List (List Char)) : List Char → Option (List Char)
  | [] => none
  | c :: rest =>
    match matchWrappedAt openLits tailLits (c :: rest) with
    | some g => some g
    | none => searchWrapped openLits tailLits rest

/-- The group captured by the `<SHOVEL_OUTPUT_JSON>`-wrapped pattern. -/
def markerCandidate (text : String) : Option String :=
  (searchWrapped ["<SHOVEL_OUTPUT_JSON>".data, "```json".data]
    ["```".data, "</SHOVEL_OUTPUT_JSON>".data] text.data).map String.mk

/-- The group captured by the bare json-labelled fenced-block pattern. -/
def fencedCandidate (text : String) : Option String :=
  (searchWrapped ["```json".data] ["```".data] text.data).map String.mk

/-- The `for candidate in candidates` loop of
`_parse_output_from_final_assistant_text`: `json.loads` each candidate
(`except: continue`), returning the first result that is a `dict`. -/
def tryCandidatesLoop : List String → Option (List (String × Json))
  | [] => none
  | c :: rest =>
    match json_loads c with
    | some (Json.obj kvs) => some kvs
    | some _ => tryCandidatesLoop rest
    | none => tryCandidatesLoop rest

/-- The `for idx, ch in enumerate(text)` loop: at each opening brace,
`raw_decode` the suffix; return the first parse that is a `dict`. -/
def bruteLoop : List Char → Option (List (String × Json))
  | [] => none
  | c :: rest =>
    if c = lbrace then
      match raw_decode (c :: rest) with
      | some (Json.obj kvs, _) => some kvs
      | some _ => bruteLoop rest
      | none => bruteLoop rest
    else bruteLoop rest

/-- `agent.py` lines 159-194: `_parse_output_from_final_assistant_text`. -/
def _parse_output_from_final_assistant_text (text : String) :
    Option (List (String × Json)) :=
  match tryCandidatesLoop
      ((markerCandidate text).toList ++ (fencedCandidate text).toList
        ++ [pyStrip text]) with
  | some kvs => some kvs
  | none => bruteLoop text.data

/-- A candidate is accepted when it parses into a record (key-value
mapping); a bare scalar or list is rejected. -/
def parseDictCandidate (c : String) : Option (List (String × Json)) :=
  match json_loads c with
  | some (Json.obj kvs) => some kvs
  | _ => none

/-- First success among prioritized candidates. -/
def firstSome : List (Option α) → Option α
  | [] => none
  | some a :: _ => some a
  | none :: rest => firstSome rest

/-- Brute-force scan as the spec words it: the first position holding an
opening brace that yields a successfully parsed value (of any shape). -/
def bruteSpecFirst : List Char → Option Json
  | [] => none
  | c :: rest =>
    if c = lbrace then
      match raw_decode (c :: rest) with
      | some (v, _) => some v
      | none => bruteSpecFirst rest
    else bruteSpecFirst rest

/-- Output extraction as the specification words it: candidates in strict
priority order — wrapper-tagged fenced block, any json fenced block, the
entire trimmed text — each rejected unless it parses into a key-value
mapping, first success winning; otherwise the brute-force scan takes the
first successfully parsed value, which is likewise rejected unless it is a
mapping. -/
def output_extraction_spec (text : String) : Option (List (String × Json)) :=
  match firstSome
      [(markerCandidate text).bind parseDictCandidate,
       (fencedCandidate text).bind parseDictCandidate,
       (some (pyStrip text)).bind parseDictCandidate] with
  | some kvs => some kvs
  | none =>
    match bruteSpecFirst text.data with
    | some (Json.obj kvs) => some kvs
    | some _ => none
    | none => none

/-! ### The post-extraction phase of `run_agent` (`agent.py` lines 281-332)

Python exceptions that repository code can raise past its own
`try`/`except` are modelled with `Except PyErr`.  The only such sites in
`run_agent` are the two `in` containment tests (a `TypeError` when the
right operand is not a string, list, or dict) and `.rstrip()` (an
`AttributeError` when `output["eval_script"]` is not a string). -/

/-- Uncaught Python exceptions escaping `run_agent`'s boundary. -/
inductive PyErr where
  | typeError : PyErr
  | attributeError : PyErr
  deriving Repr, DecidableEq

/-- Python `needle in x` for a string needle and an arbitrary value:
substring test on strings, `==`-membership on lists, key membership on
dicts, and a `TypeError` on every other type. -/
def pyInStr (needle : String) : Json → Except PyErr Bool
  | Json.str s => Except.ok (strContains s needle)
  | Json.arr xs =>
    Except.ok (xs.any (fun j => match j with | Json.str t => t = needle | _ => false))
  | Json.obj kvs => Except.ok (pyHasKey kvs needle)
  | _ => Except.error PyErr.typeError

/-- The snippet appended when the completion marker is missing
(`agent.py` lines 311-313). -/
def markerSnippet : String := "\nrc=$?\necho \"OMNIGRIL_EXIT_CODE=$rc\"\n"

/-- The fixed completion-marker token. -/
def markerToken : String := "OMNIGRIL_EXIT_CODE"

/-- `agent.py` lines 295-313: the `isinstance` gate, the three required
top-level fields, the `setup_repo.sh` key of `setup_scripts`, and the
completion-marker check with its auto-repair. -/
def postValidate (output : Json) : Except PyErr (Option Json) :=
  match output with
  | Json.obj kvs =>
    if ¬ pyHasKey kvs "dockerfile" then Except.ok none
    else if ¬ pyHasKey kvs "eval_script" then Except.ok none
    else if ¬ pyHasKey kvs "setup_scripts" then Except.ok none
    else
      match pyInStr "setup_repo.sh" (pyGet kvs "setup_scripts" (Json.obj [])) with
      | Except.error e => Except.error e
      | Except.ok hasSetup =>
        if ¬ hasSetup then Except.ok none
        else
          match pyInStr markerToken (pyGet kvs "eval_script" Json.null) with
          | Except.error e => Except.error e
          | Except.ok hasMarker =>
            if ¬ hasMarker then
              match pyGet kvs "eval_script" Json.null with
              | Json.str s =>
                Except.ok (some (Json.obj (pyInsert kvs "eval_script"
                  (Json.str (pyRstrip s ++ markerSnippet)))))
              | _ => Except.error PyErr.attributeError
            else Except.ok (some (Json.obj kvs))
  | _ => Except.ok none

/-! ### The streaming conversation loop of `run_agent`
(`agent.py` lines 237-279)

SDK messages become an inductive type covering exactly the four kinds
`_serialize_message` recognizes; the runtime raising mid-stream is an
explicit event.  Trajectory-log writes are recorded as an action list;
record payloads (timings, usage, prompt text) are abstracted away since
no claim inspects them. -/

/-- Content blocks of an SDK message (payloads reduced to what the loop
reads: text content, tool name, and the tool-result error flag). -/
inductive ContentBlock where
  | textBlock (text : String) : ContentBlock
  | thinkingBlock (t : String) : ContentBlock
  | toolUseBlock (id name : String) : ContentBlock
  | toolResultBlock (toolUseId : String) (content : Option String)
      (isErrorFlag : Option Bool) : ContentBlock
  deriving Repr, DecidableEq

/-- A `UserMessage.content` is either a raw string or a block list. -/
inductive UserContent where
  | ofString (s : String) : UserContent
  | blocks (bs : List ContentBlock) : UserContent
  deriving Repr, DecidableEq

/-- Fields of an SDK `ResultMessage` that `run_agent` reads. -/
structure ResultMessage where
  subtype : String
  is_error : Bool
  num_turns : Nat
  deriving Repr, DecidableEq

/-- The four message kinds `_serialize_message` recognizes. -/
inductive Message where
  | assistantMsg (model : String) (content : List ContentBlock) : Message
  | userMsg (content : UserContent) : Message
  | systemMsg (subtype : String) : Message
  | resultMsg (r : ResultMessage) : Message
  deriving Repr, DecidableEq

/-- One step of the awaited event stream: either the runtime yields a
message, or it raises (the `except Exception` path). -/
inductive StreamEvent where
  | yieldMsg (m : Message) : StreamEvent
  | raiseExc (e : String) : StreamEvent
  deriving Repr, DecidableEq

/-- Trajectory-log actions, abstracted to record kind. -/
inductive LogAction where
  | openLog : LogAction
  | writeHeader : LogAction
  | writeMessage (role : String) : LogAction
  | writeError : LogAction
  | writeFooter : LogAction
  | closeLog : LogAction
  deriving Repr, DecidableEq

/-- The `role` tag `_serialize_message` gives each message kind. -/
def roleOf : Message → String
  | Message.assistantMsg _ _ => "assistant"
  | Message.userMsg _ => "user"
  | Message.systemMsg _ => "system"
  | Message.resultMsg _ => "result"

/-- Text of a `TextBlock`, as collected into `text_blocks`. -/
def textOf : ContentBlock → Option String
  | ContentBlock.textBlock s => some s
  | _ => none

/-- Outcome of the `async for` loop: either the stream was consumed
(ending at a result message, by exhaustion, or never started), or the
runtime raised and the exception was caught. -/
inductive StreamOutcome where
  | finished (resultMessage : Option ResultMessage) (lastAssistantText : Option String)
      (turnCount : Nat) (acts : List LogAction) : StreamOutcome
  | excCaught (acts : List LogAction) : StreamOutcome
  deriving Repr, DecidableEq

/-- Prepend a log action to a stream outcome's action list. -/
def consAct (a : LogAction) : StreamOutcome → StreamOutcome
  | StreamOutcome.finished rm lt n acts => StreamOutcome.finished rm lt n (a :: acts)
  | StreamOutcome.excCaught acts => StreamOutcome.excCaught (a :: acts)

/-- The `async for message in query(...)` loop: every yielded message is
serialized and appended to the log before any other handling; a result
message records itself and breaks; an assistant message bumps the turn
counter and overwrites `last_assistant_text` when it carries text blocks;
tool-error previews in user messages only produce logger warnings (no
state change); a raised exception appends an error record and is caught. -/
def streamLoop : Option ResultMessage → Option String → Nat → List StreamEvent →
    StreamOutcome
  | rm, lt, n, [] => StreamOutcome.finished rm lt n []
  | _, _, _, StreamEvent.raiseExc _ :: _ =>
    StreamOutcome.excCaught [LogAction.writeError]
  | rm, lt, n, StreamEvent.yieldMsg m :: rest =>
    match m with
    | Message.resultMsg r =>
      StreamOutcome.finished (some r) lt n [LogAction.writeMessage (roleOf m)]
    | Message.assistantMsg _ content =>
      let texts := content.filterMap textOf
      let lt2 := if texts.isEmpty then lt else some (String.intercalate "\n" texts)
      consAct (LogAction.writeMessage "assistant") (streamLoop rm lt2 (n + 1) rest)
    | _ => consAct (LogAction.writeMessage (roleOf m)) (streamLoop rm lt n rest)

/-- `agent.py` lines 281-332 as a function of the loop's outputs: the
error-flagged result check, output extraction from the last assistant
text, and `postValidate`. -/
def finalizeOutput (rm : Option ResultMessage) (lt : Option String) :
    Except PyErr (Option Json) :=
  match rm with
  | some r =>
    if r.is_error then Except.ok none
    else
      match lt with
      | none => Except.ok none
      | some t =>
        match _parse_output_from_final_assistant_text t with
        | none => Except.ok none
        | some kvs => postValidate (Json.obj kvs)
  | none =>
    match lt with
    | none => Except.ok none
    | some t =>
      match _parse_output_from_final_assistant_text t with
      | none => Except.ok none
      | some kvs => postValidate (Json.obj kvs)

/-- `agent.py` lines 197-332: `run_agent`, as a function of whether a log
directory is configured and of the event stream.  Returns the Python
return value (or the uncaught exception) together with the trajectory-log
action trace. -/
def run_agent (logDirSet : Bool) (events : List StreamEvent) :
    Except PyErr (Option Json) × List LogAction :=
  let opened := if logDirSet then [LogAction.openLog, LogAction.writeHeader] else []
  match streamLoop none none 0 events with
  | StreamOutcome.excCaught acts =>
    (Except.ok none,
      opened ++ (if logDirSet then acts ++ [LogAction.writeFooter, LogAction.closeLog]
                 else []))
  | StreamOutcome.finished rm lt _ acts =>
    (finalizeOutput rm lt,
      opened ++ (if logDirSet then acts ++ [LogAction.writeFooter, LogAction.closeLog]
                 else []))

/-- The record extracted from the last assistant text recorded by the
stream loop (`none` when the loop raised, recorded no text, or the text
yielded no record). -/
def extractedOutput (events : List StreamEvent) : Option (List (String × Json)) :=
  match streamLoop none none 0 events with
  | StreamOutcome.excCaught _ => none
  | StreamOutcome.finished _ lt _ _ =>
    lt.bind (fun t => _parse_output_from_final_assistant_text t)

/-- Final assistant text for the C3 witness: a record missing the
`dockerfile` field. -/
def c3Text : String :=
  "\x7b\"eval_script\": \"e\", \"setup_scripts\": \x7b\"setup_repo.sh\": \"s\"\x7d\x7d"

/-- Event stream delivering `c3Text` and ending by turn-budget exhaustion. -/
def c3Events : List StreamEvent :=
  [StreamEvent.yieldMsg (Message.assistantMsg "m" [ContentBlock.textBlock c3Text])]

/-- The record `c3Text` parses to. -/
def c3Kvs : List (String × Json) :=
  [("eval_script", Json.str "e"),
   ("setup_scripts", Json.obj [("setup_repo.sh", Json.str "s")])]

/-- Concrete record for the C4 witness (marker absent). -/
def c4Kvs : List (String × Json) :=
  [("dockerfile", Json.str "FROM x"),
   ("eval_script", Json.str "pytest -x"),
   ("setup_scripts", Json.obj [("setup_repo.sh", Json.str "git")])]

/-- Final assistant text whose record passes the key checks but carries a
non-string `eval_script` (the integer 0). -/
def c5BadText : String :=
  "\x7b\"dockerfile\": \"d\", \"eval_script\": 0, \"setup_scripts\": \x7b\"setup_repo.sh\": \"s\"\x7d\x7d"

/-- Event stream delivering `c5BadText`. -/
def c5BadEvents : List StreamEvent :=
  [StreamEvent.yieldMsg (Message.assistantMsg "m" [ContentBlock.textBlock c5BadText])]

/-- Values on which Python's `in` test does not raise. -/
def isContainer : Json → Bool
  | Json.str _ => true
  | Json.arr _ => true
  | Json.obj _ => true
  | _ => false

/-- String-typed JSON values. -/
def isStrJson : Json → Bool
  | Json.str _ => true
  | _ => false

/-- Sufficient type-safety condition on an extracted record for the
post-validation phase to complete without an uncaught exception: when all
three required fields are present, `setup_scripts` must be a string, list,
or mapping and `eval_script` must be a string. -/
def typeSafeOutput (kvs : List (String × Json)) : Bool :=
  !(pyHasKey kvs "dockerfile" && pyHasKey kvs "eval_script"
      && pyHasKey kvs "setup_scripts")
  || (isContainer (pyGet kvs "setup_scripts" (Json.obj []))
      && isStrJson (pyGet kvs "eval_script" Json.null))

/-- Type safety of whatever record a stream's last assistant text yields
(vacuously true when extraction fails). -/
def extractionTypeSafe (events : List StreamEvent) : Bool :=
  match extractedOutput events with
  | some kvs => typeSafeOutput kvs
  | none => true

/-- Final assistant text carrying a fully well-typed record. -/
def c5GoodText : String :=
  "\x7b\"dockerfile\": \"FROM x\", \"eval_script\": \"pytest\", \"setup_scripts\": \x7b\"setup_repo.sh\": \"git x\"\x7d\x7d"

/-- Event stream delivering `c5GoodText`. -/
def c5GoodEvents : List StreamEvent :=
  [StreamEvent.yieldMsg (Message.assistantMsg "m" [ContentBlock.textBlock c5GoodText])]

/-- Trajectory-log actions other than open/close/header/footer. -/
def isMidAction : LogAction → Bool
  | LogAction.writeMessage _ => true
  | LogAction.writeError => true
  | _ => false

/-- Action list of a stream outcome. -/
def actsOf : StreamOutcome → List LogAction
  | StreamOutcome.finished _ _ _ acts => acts
  | StreamOutcome.excCaught acts => acts

/-! ### The pipeline controller (`cli.py`)

The insertion-ordered `dict` of instances is an association list keyed by
instance id.  `process_instance`'s external effects (repository clone and
the agent session) are abstracted into a per-instance `TaskOutcome`: the
clone failing, or `run_agent` returning `None` or a parsed record.
`asyncio.as_completed` consumes task results in completion order, an
arbitrary permutation of the scheduled instances, which the model takes as
an explicit parameter.  The durable output is represented by the mapping
last written to the output file (`None` when no file exists). -/

/-- The fields of `RunConfig` read by `_filter_instances` and
`_load_existing_results` (paths and session options are consumed opaquely
elsewhere). -/
structure RunCfg where
  instance_ids : Option (List String)
  start : Option Int
  end_ : Option Int
  resume : Bool

/-- Clamp a Python slice index to `[0, n]`, resolving negatives from the
end. -/
def pySliceIdx (n : Nat) (i : Int) : Nat :=
  (if i < 0 then max (i + n) 0 else min i (n : Int)).toNat

/-- Python `l[a:b]`. -/
def pySlice (l : List α) (a b : Int) : List α :=
  let lo := pySliceIdx l.length a
  let hi := pySliceIdx l.length b
  (l.drop lo).take (hi - lo)

/-- `cli.py` lines 70-90: `_filter_instances` — the id allowlist (skipped
when the CLI flag is absent or the list empty, by Python truthiness), then
the 1-based inclusive positional slice over the filtered order. -/
def _filter_instances (instances : List (String × Json)) (cfg : RunCfg) :
    List (String × Json) :=
  let selected :=
    match cfg.instance_ids with
    | some ids => if ids.isEmpty then instances
                  else instances.filter (fun kv => ids.contains kv.1)
    | none => instances
  if cfg.start.isSome || cfg.end_.isSome then
    let all_keys := selected.map Prod.fst
    let start_idx : Int := match cfg.start with | some s => s - 1 | none => 0
    let end_idx : Int := match cfg.end_ with | some e => e | none => all_keys.length
    let selected_keys := pySlice all_keys start_idx end_idx
    selected_keys.filterMap (fun k => (pyLookup selected k).map (fun v => (k, v)))
  else selected

/-- `cli.py` lines 93-100: `_load_existing_results` — previous output is
loaded only when resume is enabled and the output file exists. -/
def _load_existing_results (resume : Bool) (outFile : Option (List (String × Json))) :
    List (String × Json) :=
  match outFile with
  | some existing => if resume then existing else []
  | none => []

/-- Abstraction of one task's external interactions: the repository clone
failing, or the agent session returning no result or a parsed record. -/
inductive TaskOutcome where
  | cloneFail : TaskOutcome
  | agentFail : TaskOutcome
  | agentOk (kvs : List (String × Json)) : TaskOutcome
  deriving Repr

/-- `cli.py` lines 36-67: `process_instance` — a failed clone returns the
minimal placeholder; a failed agent run starts from the empty record; in
every case `result["instance_id"] = instance_id` is set before returning
`(instance_id, result)`. -/
def process_instance (instance_id : String) (oc : TaskOutcome) : String × Json :=
  match oc with
  | TaskOutcome.cloneFail => (instance_id, Json.obj [("instance_id", Json.str instance_id)])
  | TaskOutcome.agentFail =>
    (instance_id, Json.obj (pyInsert [] "instance_id" (Json.str instance_id)))
  | TaskOutcome.agentOk kvs =>
    (instance_id, Json.obj (pyInsert kvs "instance_id" (Json.str instance_id)))

/-- The work set actually scheduled by `run_pipeline`: the filtered
instances, minus ids already present in the loaded results (the resume
filter runs only when the loaded mapping is non-empty, per Python
truthiness — with an empty mapping the filter is the identity anyway). -/
def scheduled (instances0 : List (String × Json)) (cfg : RunCfg)
    (outFile : Option (List (String × Json))) : List (String × Json) :=
  let instances := _filter_instances instances0 cfg
  let all_results := _load_existing_results cfg.resume outFile
  if all_results.isEmpty then instances
  else instances.filter (fun kv => ¬ pyHasKey all_results kv.1)

/-- One iteration of the completion loop: store the finished task's result
under its returned instance id. -/
def pipelineStep (oc : String → TaskOutcome) (acc : List (String × Json))
    (id : String) : List (String × Json) :=
  let pr := process_instance id (oc id)
  pyInsert acc pr.1 pr.2

/-- `cli.py` lines 103-168: `run_pipeline` — load, filter/slice, resume
filter, schedule, and the completion loop that adds each finished task's
result under its instance id and rewrites the whole mapping to the output
file.  `completions` is the completion order delivered by
`asyncio.as_completed` (a permutation of the scheduled ids); the return
value is the final content of the output file. -/
def run_pipeline (instances0 : List (String × Json)) (cfg : RunCfg)
    (outFile : Option (List (String × Json))) (oc : String → TaskOutcome)
    (completions : List String) : Option (List (String × Json)) :=
  let instances1 := _filter_instances instances0 cfg
  if instances1.isEmpty then outFile
  else
    let instances2 := scheduled instances0 cfg outFile
    if instances2.isEmpty then outFile
    else
      some (completions.foldl (pipelineStep oc)
        (_load_existing_results cfg.resume outFile))

/-- The five-instance id sequence of the slice-composition example. -/
def inst5 : List (String × Json) :=
  [("a", Json.null), ("b", Json.null), ("c", Json.null), ("d", Json.null),
   ("e", Json.null)]

/-- Slice start=2, end=4 alone. -/
def cfgSlice : RunCfg := ⟨none, some 2, some 4, false⟩

/-- Allowlist `{b,d,e}` combined with slice start=2, end=4. -/
def cfgBoth : RunCfg := ⟨some ["b", "d", "e"], some 2, some 4, false⟩

/-- Previously persisted mapping for the C6 witness. -/
def c6Existing : List (String × Json) :=
  [("a", Json.obj [("instance_id", Json.str "a")])]

/-- Instance set for the C6 witness. -/
def c6Instances : List (String × Json) := [("a", Json.null), ("b", Json.null)]

/-- Run configuration with resume enabled and no filters. -/
def c6Cfg : RunCfg := ⟨none, none, none, true⟩

/-- Instance set for the C8 witness. -/
def c8Instances : List (String × Json) := [("x", Json.null), ("y", Json.null)]

/-- Run configuration with no filters and no resume. -/
def c8Cfg : RunCfg := ⟨none, none, none, false⟩

/-- Outcomes for the C8 witness: the clone of `x` fails, `y`'s agent run
returns no result. -/
def c8Oc : String → TaskOutcome :=
  fun id => if id = "x" then TaskOutcome.cloneFail else TaskOutcome.agentFail

/-! ### Touched-file extraction (`utils.py` lines 92-105)

`get_modified_files` delegates diff parsing to the third-party `unidiff`
library and reads each entry's `source_file`.  The library's header
parsing is modelled at the level the function consumes: a file entry is a
`--- ` line (source path up to a tab) immediately followed by a `+++ `
line; hunk bodies are irrelevant to the extracted paths and are skipped
(theorems evaluate the parser only on well-formed patches). -/

/-- Split a character list at newlines. -/
def splitNlL : List Char → List Char → List String
  | acc, [] => [String.mk acc.reverse]
  | acc, c :: rest =>
    if c = '\n' then String.mk acc.reverse :: splitNlL [] rest
    else splitNlL (c :: acc) rest

/-- Split a string into its lines (Python `str.split` on a newline). -/
def splitNl (s : String) : List String := splitNlL [] s.data

/-- The `source_file` of each diff entry, in order. -/
def patchSourceFiles : List String → List String
  | [] => []
  | l :: rest =>
    match matchLit ("--- ".data) l.data with
    | some nameData =>
      (match rest with
       | t :: _ =>
         if (matchLit ("+++ ".data) t.data).isSome
             && !(nameData.takeWhile (fun c => c ≠ '\t')).isEmpty then
           String.mk (nameData.takeWhile (fun c => c ≠ '\t')) :: patchSourceFiles rest
         else patchSourceFiles rest
       | [] => patchSourceFiles rest)
    | none => patchSourceFiles rest

/-- `utils.py` lines 92-105: `get_modified_files` — empty or
whitespace-only patches give `[]`; otherwise collect source paths that are
not `/dev/null`, keep those starting with `a/`, and strip the first two
characters. -/
def get_modified_files (patch : String) : List String :=
  if pyStrip patch = "" then []
  else
    (((patchSourceFiles (splitNl patch)).filter
        (fun x => x ≠ "/dev/null")).filter
      (fun x => strStartsLit "a/" x)).map (fun x => String.mk (x.data.drop 2))

/-- The extraction as the claim words it: every entry whose source side is
not `/dev/null` is returned, stripped of its leading two characters. -/
def get_modified_files_claim (patch : String) : List String :=
  if pyStrip patch = "" then []
  else
    ((patchSourceFiles (splitNl patch)).filter
      (fun x => x ≠ "/dev/null")).map (fun x => String.mk (x.data.drop 2))

/-- The extraction as amended: exactly the entries whose source side is
not `/dev/null` and starts with the two-character prefix `a/`, each
stripped of that prefix. -/
def get_modified_files_amended (patch : String) : List String :=
  if pyStrip patch = "" then []
  else
    ((patchSourceFiles (splitNl patch)).filter
      (fun x => decide (x ≠ "/dev/null") && strStartsLit "a/" x)).map
      (fun x => String.mk (x.data.drop 2))

/-- A well-formed unified diff produced without the `a/`/`b/` prefixes
(as by `git diff --no-prefix`): its source side is `foo.txt`. -/
def c9Patch : String := "--- foo.txt\n+++ foo.txt\n@@ -1 +1 @@\n-x\n+y\n"

theorem pyLookup_pyInsert_self (m : List (String × Json)) (k : String) (v : Json) :
    pyLookup (pyInsert m k v) k = some v := by
  induction m with
  | nil => simp [pyInsert, pyLookup]
  | cons hd t ih =>
    obtain ⟨k', v'⟩ := hd
    by_cases h : k' = k
    · simp [pyInsert, h, pyLookup]
    · simp [pyInsert, h, pyLookup, ih]

theorem pyLookup_pyInsert_ne (m : List (String × Json)) (k k' : String) (v : Json)
    (h : k' ≠ k) : pyLookup (pyInsert m k' v) k = pyLookup m k := by
  induction m with
  | nil => simp [pyInsert, pyLookup, h]
  | cons hd t ih =>
    obtain ⟨k0, v0⟩ := hd
    by_cases h0 : k0 = k'
    · subst h0
      simp [pyInsert, pyLookup, h]
    · by_cases h1 : k0 = k
      · simp [pyInsert, h0, pyLookup, h1, Ne.symm h]
      · simp [pyInsert, h0, pyLookup, h1, ih]

theorem pyHasKey_pyInsert (m : List (String × Json)) (k k' : String) (v : Json) :
    pyHasKey (pyInsert m k' v) k = (pyHasKey m k || k = k') := by
  by_cases h : k' = k
  · subst h
    simp [pyHasKey, pyLookup_pyInsert_self]
  · simp [pyHasKey, pyLookup_pyInsert_ne m k k' v h]
    intro
    simp_all

theorem parseObjBody_obj :
    ∀ (fuel : Nat) (first : Bool) (cs : List Char) (acc : List (String × Json))
      (v : Json) (rest : List Char),
      parseObjBody fuel first cs acc = some (v, rest) → ∃ kvs, v = Json.obj kvs := by
  intro fuel
  induction fuel with
  | zero =>
    intro first cs acc v rest h
    simp [parseObjBody] at h
  | succ n ih =>
    intro first cs acc v rest h
    rcases cs with _ | ⟨c, cs2⟩
    · simp [parseObjBody] at h
    · simp only [parseObjBody] at h
      split at h
      · simp only [Option.some.injEq, Prod.mk.injEq] at h
        exact ⟨acc, h.1.symm⟩
      · split at h
        · split at h
          · exact absurd h (by simp)
          · split at h
            · split at h
              · exact absurd h (by simp)
              · split at h
                · split at h
                  · simp only [Option.some.injEq, Prod.mk.injEq] at h
                    exact ⟨_, h.1.symm⟩
                  · split at h
                    · exact ih _ _ _ _ _ h
                    · exact absurd h (by simp)
                · exact absurd h (by simp)
            · exact absurd h (by simp)
        · exact absurd h (by simp)

theorem parseValue_lbrace_obj (fuel : Nat) (t : List Char) (v : Json) (rest : List Char)
    (h : parseValue fuel (lbrace :: t) = some (v, rest)) : ∃ kvs, v = Json.obj kvs := by
  rcases fuel with _ | n
  · simp [parseValue] at h
  · simp only [parseValue, if_pos rfl] at h
    exact parseObjBody_obj _ _ _ _ _ _ h

theorem bruteLoop_eq (cs : List Char) :
    bruteLoop cs =
      (match bruteSpecFirst cs with
       | some (Json.obj kvs) => some kvs
       | some _ => none
       | none => none) := by
  induction cs with
  | nil => rfl
  | cons c rest ih =>
    by_cases hc : c = lbrace
    · subst hc
      simp only [bruteLoop, bruteSpecFirst, if_pos rfl]
      cases hr : raw_decode (lbrace :: rest) with
      | none => simpa using ih
      | some p =>
        obtain ⟨v, r⟩ := p
        simp only [raw_decode] at hr
        obtain ⟨kvs, rfl⟩ := parseValue_lbrace_obj _ _ _ _ hr
        rfl
    · simp only [bruteLoop, bruteSpecFirst, if_neg hc]
      exact ih

theorem tryCandidatesLoop_cons (c : String) (rest : List String) :
    tryCandidatesLoop (c :: rest) =
      (match parseDictCandidate c with
       | some kvs => some kvs
       | none => tryCandidatesLoop rest) := by
  simp only [tryCandidatesLoop, parseDictCandidate]
  cases h : json_loads c with
  | none => rfl
  | some v => cases v <;> rfl

theorem tryCandidates_firstSome (cands : List String) :
    tryCandidatesLoop cands = firstSome (cands.map parseDictCandidate) := by
  induction cands with
  | nil => rfl
  | cons c rest ih =>
    rw [tryCandidatesLoop_cons, List.map_cons]
    cases h : parseDictCandidate c with
    | some kvs => rfl
    | none => exact ih

theorem tryCandidates_three (o1 o2 : Option String) (c3 : String) :
    tryCandidatesLoop (o1.toList ++ o2.toList ++ [c3]) =
      firstSome [o1.bind parseDictCandidate, o2.bind parseDictCandidate,
        (some c3).bind parseDictCandidate] := by
  rw [tryCandidates_firstSome]
  cases o1 with
  | none => cases o2 <;> rfl
  | some c1 =>
    cases o2 with
    | none =>
      simp only [Option.toList, List.cons_append, List.nil_append, List.map_cons,
        List.map_nil, Option.some_bind, Option.none_bind]
      cases parseDictCandidate c1 <;> rfl
    | some c2 => rfl

/-- C1: for every final assistant text, the output-extraction function
tries candidates in strict priority order with first success winning —
the wrapper-tagged json fenced block, then any json fenced block, then the
entire trimmed text, then a brute-force scan over every opening-brace
position taking the first successfully parsed value — and a candidate that
parses to anything other than a key-value mapping is rejected, moving on
to the next candidate or strategy. -/
theorem claim1_output_extraction_priority (text : String) :
    _parse_output_from_final_assistant_text text = output_extraction_spec text := by
  unfold _parse_output_from_final_assistant_text output_extraction_spec
  rw [tryCandidates_three]
  cases firstSome [(markerCandidate text).bind parseDictCandidate,
      (fencedCandidate text).bind parseDictCandidate,
      (some (pyStrip text)).bind parseDictCandidate] with
  | some kvs => rfl
  | none =>
    simp only
    rw [bruteLoop_eq]

theorem postValidate_missing (kvs : List (String × Json))
    (hmiss : pyHasKey kvs "dockerfile" = false ∨ pyHasKey kvs "eval_script" = false
      ∨ pyHasKey kvs "setup_scripts" = false
      ∨ ∃ m, pyGet kvs "setup_scripts" (Json.obj []) = Json.obj m
          ∧ pyHasKey m "setup_repo.sh" = false) :
    postValidate (Json.obj kvs) = Except.ok none := by
  unfold postValidate
  rcases hmiss with h | h | h | ⟨m, hm, hk⟩
  · simp [h]
  · by_cases h1 : pyHasKey kvs "dockerfile" <;> simp [h1, h]
  · by_cases h1 : pyHasKey kvs "dockerfile" <;>
      by_cases h2 : pyHasKey kvs "eval_script" <;> simp [h1, h2, h]
  · by_cases h1 : pyHasKey kvs "dockerfile" <;>
      by_cases h2 : pyHasKey kvs "eval_script" <;>
      by_cases h3 : pyHasKey kvs "setup_scripts" <;>
      simp [h1, h2, h3, hm, pyInStr, hk]

/-- C3: an extracted record missing any of the three required top-level
fields (`dockerfile`, `eval_script`, `setup_scripts`), or whose
`setup_scripts` mapping lacks the fixed key `setup_repo.sh`, makes the
session driver return no result, even though extraction succeeded. -/
theorem claim3_validation_gate (d : Bool) (events : List StreamEvent)
    (kvs : List (String × Json))
    (hx : extractedOutput events = some kvs)
    (hmiss : pyHasKey kvs "dockerfile" = false ∨ pyHasKey kvs "eval_script" = false
      ∨ pyHasKey kvs "setup_scripts" = false
      ∨ ∃ m, pyGet kvs "setup_scripts" (Json.obj []) = Json.obj m
          ∧ pyHasKey m "setup_repo.sh" = false) :
    (run_agent d events).1 = Except.ok none := by
  unfold extractedOutput at hx
  unfold run_agent
  cases hstream : streamLoop none none 0 events with
  | excCaught acts => simp
  | finished rm lt n acts =>
    rw [hstream] at hx
    simp only at hx
    rcases lt with _ | t
    · simp at hx
    · simp only [Option.some_bind] at hx
      have hfin : finalizeOutput rm (some t) = Except.ok none := by
        unfold finalizeOutput
        rcases rm with _ | r
        · show (match _parse_output_from_final_assistant_text t with
            | none => Except.ok none
            | some kvs => postValidate (Json.obj kvs)) = Except.ok none
          rw [hx]
          exact postValidate_missing kvs hmiss
        · show (if r.is_error = true then Except.ok none
              else match _parse_output_from_final_assistant_text t with
                | none => Except.ok none
                | some kvs => postValidate (Json.obj kvs)) = Except.ok none
          by_cases he : r.is_error = true
          · rw [if_pos he]
          · rw [if_neg he, hx]
            exact postValidate_missing kvs hmiss
      simp [hfin]

theorem claim3_witness : (run_agent true c3Events).1 = Except.ok none :=
  claim3_validation_gate true c3Events c3Kvs rfl (Or.inl (by decide))

theorem postValidate_obj (kvs : List (String × Json)) :
    postValidate (Json.obj kvs) =
      (if ¬ pyHasKey kvs "dockerfile" = true then Except.ok none
       else if ¬ pyHasKey kvs "eval_script" = true then Except.ok none
       else if ¬ pyHasKey kvs "setup_scripts" = true then Except.ok none
       else
         match pyInStr "setup_repo.sh" (pyGet kvs "setup_scripts" (Json.obj [])) with
         | Except.error e => Except.error e
         | Except.ok hasSetup =>
           if ¬ hasSetup = true then Except.ok none
           else
             match pyInStr markerToken (pyGet kvs "eval_script" Json.null) with
             | Except.error e => Except.error e
             | Except.ok hasMarker =>
               if ¬ hasMarker = true then
                 match pyGet kvs "eval_script" Json.null with
                 | Json.str s =>
                   Except.ok (some (Json.obj (pyInsert kvs "eval_script"
                     (Json.str (pyRstrip s ++ markerSnippet)))))
                 | _ => Except.error PyErr.attributeError
               else Except.ok (some (Json.obj kvs))) := rfl

theorem strContainsL_append_right (n m l : List Char) (h : strContainsL n m = true) :
    strContainsL n (l ++ m) = true := by
  induction l with
  | nil => simpa using h
  | cons c t ih => simp [strContainsL, ih]

/-- C4: a validated record whose test script lacks the completion-marker
token gets the fixed capture-and-echo snippet appended (and the result
contains the token); a script already containing the token is returned
unmodified, with no duplicate injection. -/
theorem claim4_marker_autorepair (kvs : List (String × Json)) (s : String)
    (h1 : pyHasKey kvs "dockerfile" = true)
    (h2 : pyHasKey kvs "eval_script" = true)
    (h3 : pyHasKey kvs "setup_scripts" = true)
    (h4 : pyInStr "setup_repo.sh" (pyGet kvs "setup_scripts" (Json.obj []))
      = Except.ok true)
    (h5 : pyGet kvs "eval_script" Json.null = Json.str s) :
    (strContains s markerToken = false →
        postValidate (Json.obj kvs) =
          Except.ok (some (Json.obj (pyInsert kvs "eval_script"
            (Json.str (pyRstrip s ++ markerSnippet)))))
        ∧ strContains (pyRstrip s ++ markerSnippet) markerToken = true)
    ∧ (strContains s markerToken = true →
        postValidate (Json.obj kvs) = Except.ok (some (Json.obj kvs))) := by
  constructor
  · intro hc
    constructor
    · rw [postValidate_obj, h4, h5]
      simp [h1, h2, h3, pyInStr, hc]
    · unfold strContains
      rw [String.data_append]
      exact strContainsL_append_right _ _ _ (by decide)
  · intro hc
    rw [postValidate_obj, h4, h5]
    simp [h1, h2, h3, pyInStr, hc]

theorem claim4_witness :
    (postValidate (Json.obj c4Kvs) =
        Except.ok (some (Json.obj (pyInsert c4Kvs "eval_script"
          (Json.str (pyRstrip "pytest -x" ++ markerSnippet)))))
      ∧ strContains (pyRstrip "pytest -x" ++ markerSnippet) markerToken = true) :=
  (claim4_marker_autorepair c4Kvs "pytest -x" rfl rfl rfl rfl rfl).1 rfl

/-- C5 counterexample: `run_agent` is claimed never to raise out of its
boundary, but an extracted record whose `eval_script` is the integer `0`
reaches the containment test `"OMNIGRIL_EXIT_CODE" not in output["eval_script"]`
outside the `try`/`except`, which raises a `TypeError` that escapes. -/
theorem claim5_counterexample :
    (run_agent false c5BadEvents).1 = Except.error PyErr.typeError := rfl

theorem pyInStr_ok_of_container (needle : String) (j : Json)
    (h : isContainer j = true) : ∃ b, pyInStr needle j = Except.ok b := by
  cases j with
  | str s => exact ⟨_, rfl⟩
  | arr xs => exact ⟨_, rfl⟩
  | obj kvs => exact ⟨_, rfl⟩
  | null => simp [isContainer] at h
  | bool b => simp [isContainer] at h
  | num n => simp [isContainer] at h

theorem isStrJson_exists (j : Json) (h : isStrJson j = true) : ∃ s, j = Json.str s := by
  cases j with
  | str s => exact ⟨s, rfl⟩
  | null => simp [isStrJson] at h
  | bool b => simp [isStrJson] at h
  | num n => simp [isStrJson] at h
  | arr xs => simp [isStrJson] at h
  | obj kvs => simp [isStrJson] at h

theorem postValidate_ok_of_typeSafe (kvs : List (String × Json))
    (h : typeSafeOutput kvs = true) :
    ∃ r, postValidate (Json.obj kvs) = Except.ok r := by
  by_cases h1 : pyHasKey kvs "dockerfile" = true
  · by_cases h2 : pyHasKey kvs "eval_script" = true
    · by_cases h3 : pyHasKey kvs "setup_scripts" = true
      · unfold typeSafeOutput at h
        rw [h1, h2, h3] at h
        simp only [Bool.and_self, Bool.not_true, Bool.false_or] at h
        rw [Bool.and_eq_true] at h
        obtain ⟨hcont, hstr⟩ := h
        obtain ⟨b, hb⟩ := pyInStr_ok_of_container "setup_repo.sh" _ hcont
        obtain ⟨s, hs⟩ := isStrJson_exists _ hstr
        rw [postValidate_obj, hb, hs]
        cases b with
        | false => exact ⟨none, by simp [h1, h2, h3]⟩
        | true =>
          cases hm : strContains s markerToken with
          | false =>
            exact ⟨some (Json.obj (pyInsert kvs "eval_script"
                (Json.str (pyRstrip s ++ markerSnippet)))),
              by simp [h1, h2, h3, pyInStr, hm]⟩
          | true => exact ⟨some (Json.obj kvs), by simp [h1, h2, h3, pyInStr, hm]⟩
      · exact ⟨none, by rw [postValidate_obj]; simp [h3]⟩
    · exact ⟨none, by rw [postValidate_obj]; simp [h2]⟩
  · exact ⟨none, by rw [postValidate_obj]; simp [h1]⟩

theorem finalizeOutput_none (rm : Option ResultMessage) :
    finalizeOutput rm none = Except.ok none := by
  cases rm with
  | none => rfl
  | some r =>
    show (if r.is_error = true then Except.ok none else Except.ok none) = Except.ok none
    by_cases he : r.is_error = true
    · rw [if_pos he]
    · rw [if_neg he]

theorem finalizeOutput_cases (rm : Option ResultMessage) (t : String) :
    finalizeOutput rm (some t) = Except.ok none ∨
    finalizeOutput rm (some t) =
      (match _parse_output_from_final_assistant_text t with
       | none => Except.ok none
       | some kvs => postValidate (Json.obj kvs)) := by
  cases rm with
  | none => exact Or.inr rfl
  | some r =>
    by_cases he : r.is_error = true
    · refine Or.inl ?_
      show (if r.is_error = true then Except.ok none
            else match _parse_output_from_final_assistant_text t with
              | none => Except.ok none
              | some kvs => postValidate (Json.obj kvs)) = Except.ok none
      rw [if_pos he]
    · refine Or.inr ?_
      show (if r.is_error = true then Except.ok none
            else match _parse_output_from_final_assistant_text t with
              | none => Except.ok none
              | some kvs => postValidate (Json.obj kvs)) = _
      rw [if_neg he]

/-- C5 amended: `run_agent` converts runtime errors mid-stream,
error-flagged results, unparseable output, and missing required fields to
a no-result return without raising; but, as the counterexample shows, an
extracted record whose field values are ill-typed (a non-string
`eval_script`, or a `setup_scripts` that is not a string, list, or
mapping) makes the post-validation phase raise an uncaught `TypeError` or
`AttributeError`.  Under the type-safety condition the no-raise contract
holds on every stream. -/
theorem claim5_amended_no_raise (d : Bool) (events : List StreamEvent)
    (h : extractionTypeSafe events = true) :
    ∃ r, (run_agent d events).1 = Except.ok r := by
  unfold extractionTypeSafe extractedOutput at h
  unfold run_agent
  cases hstream : streamLoop none none 0 events with
  | excCaught acts => exact ⟨none, rfl⟩
  | finished rm lt n acts =>
    rw [hstream] at h
    simp only at h
    have hfin : ∃ r, finalizeOutput rm lt = Except.ok r := by
      rcases lt with _ | t
      · exact ⟨none, finalizeOutput_none rm⟩
      · rcases finalizeOutput_cases rm t with hcase | hcase
        · exact ⟨none, hcase⟩
        · rw [hcase]
          simp only [Option.some_bind] at h
          cases hp : _parse_output_from_final_assistant_text t with
          | none => exact ⟨none, rfl⟩
          | some kvs =>
            rw [hp] at h
            exact postValidate_ok_of_typeSafe kvs h
    obtain ⟨r, hr⟩ := hfin
    exact ⟨r, hr⟩

theorem claim5_witness : ∃ r, (run_agent true c5GoodEvents).1 = Except.ok r :=
  claim5_amended_no_raise true c5GoodEvents rfl

theorem actsOf_consAct (a : LogAction) (o : StreamOutcome) :
    actsOf (consAct a o) = a :: actsOf o := by
  cases o <;> rfl

theorem streamLoop_acts_mid (evs : List StreamEvent) :
    ∀ rm lt n, (actsOf (streamLoop rm lt n evs)).all isMidAction = true := by
  induction evs with
  | nil => intro rm lt n; rfl
  | cons e rest ih =>
    intro rm lt n
    cases e with
    | raiseExc s => rfl
    | yieldMsg m =>
      cases m with
      | resultMsg r => rfl
      | assistantMsg mo content => simp [streamLoop, actsOf_consAct, isMidAction, ih]
      | userMsg c => simp [streamLoop, actsOf_consAct, isMidAction, ih]
      | systemMsg s => simp [streamLoop, actsOf_consAct, isMidAction, ih]

/-- C7: with a log directory configured, on every stream — success,
error-flagged result, unparseable output, or runtime exception mid-stream
— the trajectory log is opened exactly once, the header is the first
record, the footer is the last, and the file is closed at the end; nothing
in between opens, closes, or writes another header or footer. -/
theorem claim7_trajectory_log_discipline (events : List StreamEvent) :
    ∃ mid, (run_agent true events).2 =
        LogAction.openLog :: LogAction.writeHeader ::
          (mid ++ [LogAction.writeFooter, LogAction.closeLog])
      ∧ mid.all isMidAction = true := by
  unfold run_agent
  cases hstream : streamLoop none none 0 events with
  | excCaught acts =>
    refine ⟨acts, by simp, ?_⟩
    have hmid := streamLoop_acts_mid events none none 0
    rw [hstream] at hmid
    exact hmid
  | finished rm lt n acts =>
    refine ⟨acts, by simp, ?_⟩
    have hmid := streamLoop_acts_mid events none none 0
    rw [hstream] at hmid
    exact hmid

theorem process_instance_fst (id : String) (o : TaskOutcome) :
    (process_instance id o).1 = id := by
  cases o <;> rfl

theorem pipelineStep_eq (oc : String → TaskOutcome) (acc : List (String × Json))
    (id : String) :
    pipelineStep oc acc id = pyInsert acc id (process_instance id (oc id)).2 := by
  show pyInsert acc (process_instance id (oc id)).1 (process_instance id (oc id)).2 = _
  rw [process_instance_fst]

theorem foldl_pipelineStep_not_mem (oc : String → TaskOutcome) (l : List String) :
    ∀ (acc : List (String × Json)) (k : String), k ∉ l →
      pyLookup (l.foldl (pipelineStep oc) acc) k = pyLookup acc k := by
  induction l with
  | nil => intro acc k _; rfl
  | cons id rest ih =>
    intro acc k hk
    rw [List.mem_cons, not_or] at hk
    rw [List.foldl_cons, ih _ k hk.2, pipelineStep_eq]
    exact pyLookup_pyInsert_ne acc k id _ (fun he => hk.1 he.symm)

theorem foldl_pipelineStep_hasKey (oc : String → TaskOutcome) (l : List String) :
    ∀ (acc : List (String × Json)) (k : String),
      (pyHasKey (l.foldl (pipelineStep oc) acc) k = true
        ↔ (pyHasKey acc k = true ∨ k ∈ l)) := by
  induction l with
  | nil => intro acc k; simp
  | cons id rest ih =>
    intro acc k
    rw [List.foldl_cons, ih, pipelineStep_eq, pyHasKey_pyInsert]
    constructor
    · rintro (h | h)
      · rw [Bool.or_eq_true] at h
        rcases h with h | h
        · exact Or.inl h
        · simp at h
          exact Or.inr (by simp [h])
      · exact Or.inr (by simp [h])
    · rintro (h | h)
      · exact Or.inl (by simp [h])
      · rw [List.mem_cons] at h
        rcases h with rfl | h
        · exact Or.inl (by simp)
        · exact Or.inr h

theorem foldl_pipelineStep_lookup_mem (oc : String → TaskOutcome) (l : List String) :
    ∀ (acc : List (String × Json)) (k : String), l.Nodup → k ∈ l →
      pyLookup (l.foldl (pipelineStep oc) acc) k
        = some (process_instance k (oc k)).2 := by
  induction l with
  | nil => intro acc k _ hk; simp at hk
  | cons id rest ih =>
    intro acc k hnd hk
    rw [List.foldl_cons]
    rcases List.mem_cons.mp hk with rfl | hmem
    · have hnotin : k ∉ rest := (List.nodup_cons.mp hnd).1
      rw [foldl_pipelineStep_not_mem oc rest _ k hnotin, pipelineStep_eq]
      exact pyLookup_pyInsert_self _ _ _
    · exact ih _ k (List.nodup_cons.mp hnd).2 hmem

/-- C2 counterexample: with the allowlist `{b,d,e}` and slice start=2,
end=4 over `[a,b,c,d,e]`, the claim says exactly `{b,d}` is selected, but
the code applies the allowlist first (giving `[b,d,e]`) and then the
1-based inclusive slice over that filtered order, selecting `{d,e}`; in
particular `b` is not selected. -/
theorem claim2_counterexample :
    (_filter_instances inst5 cfgBoth).map Prod.fst = ["d", "e"]
    ∧ "b" ∉ (_filter_instances inst5 cfgBoth).map Prod.fst := by
  constructor
  · rfl
  · decide

/-- C2 amended: slice start=2, end=4 alone selects exactly `{b,c,d}`;
combined with the allowlist `{b,d,e}` it selects exactly `{d,e}` — the
allowlist is applied before the slice and the slice indices are computed
over the filtered sequence's own order. -/
theorem claim2_slice_composition :
    (_filter_instances inst5 cfgSlice).map Prod.fst = ["b", "c", "d"]
    ∧ (_filter_instances inst5 cfgBoth).map Prod.fst = ["d", "e"] :=
  ⟨rfl, rfl⟩

/-- C10: for every task outcome — successful agent run, failed agent run,
or clone failure — the stored result is a record whose `instance_id` field
equals the mapping key under which `run_pipeline` stores it (the first
component of `process_instance`'s return), even when the agent-produced
record carried a different or missing `instance_id`. -/
theorem claim10_result_carries_key (instance_id : String) (oc0 : TaskOutcome) :
    (process_instance instance_id oc0).1 = instance_id
    ∧ ∃ kvs, (process_instance instance_id oc0).2 = Json.obj kvs
        ∧ pyLookup kvs "instance_id" = some (Json.str instance_id) := by
  cases oc0 with
  | cloneFail => exact ⟨rfl, _, rfl, by simp [pyLookup]⟩
  | agentFail => exact ⟨rfl, _, rfl, pyLookup_pyInsert_self _ _ _⟩
  | agentOk kvs => exact ⟨rfl, _, rfl, pyLookup_pyInsert_self _ _ _⟩

theorem load_existing_resume (existing : List (String × Json)) :
    _load_existing_results true (some existing) = existing := rfl

theorem scheduledNotInExisting (instances0 : List (String × Json)) (cfg : RunCfg)
    (existing : List (String × Json)) (hres : cfg.resume = true) (k : String)
    (hk : pyHasKey existing k = true) :
    k ∉ (scheduled instances0 cfg (some existing)).map Prod.fst := by
  unfold scheduled
  rw [hres, load_existing_resume]
  by_cases hemp : existing.isEmpty
  · rw [List.isEmpty_iff] at hemp
    subst hemp
    simp [pyHasKey, pyLookup] at hk
  · rw [if_neg hemp]
    intro hmem
    rw [List.mem_map] at hmem
    obtain ⟨kv, hkv, hfst⟩ := hmem
    rw [List.mem_filter] at hkv
    have hnot := hkv.2
    rw [hfst] at hnot
    simp [hk] at hnot

theorem scheduled_empty_of_filter_empty (instances0 : List (String × Json))
    (cfg : RunCfg) (outFile : Option (List (String × Json)))
    (h : _filter_instances instances0 cfg = []) :
    scheduled instances0 cfg outFile = [] := by
  unfold scheduled
  rw [h]
  by_cases hemp : (_load_existing_results cfg.resume outFile).isEmpty <;>
    simp [hemp]

/-- C6: with resume enabled and a previously persisted result mapping
present, every id in that mapping is excluded from the scheduled work set
before any task is launched; the pipeline produces a final mapping whose
entries at previously persisted ids are exactly the persisted ones, and
whose keys are exactly the persisted ids plus the scheduled ids (only the
remaining instances are processed, in completion order). -/
theorem claim6_resume_semantics (instances0 : List (String × Json)) (cfg : RunCfg)
    (existing : List (String × Json)) (oc : String → TaskOutcome)
    (completions : List String)
    (hres : cfg.resume = true)
    (hperm : completions.Perm ((scheduled instances0 cfg (some existing)).map Prod.fst)) :
    (∀ k, pyHasKey existing k = true →
        k ∉ (scheduled instances0 cfg (some existing)).map Prod.fst)
    ∧ ∃ final, run_pipeline instances0 cfg (some existing) oc completions = some final
        ∧ (∀ k, pyHasKey existing k = true → pyLookup final k = pyLookup existing k)
        ∧ (∀ k, pyHasKey final k = true ↔
            (pyHasKey existing k = true
              ∨ k ∈ (scheduled instances0 cfg (some existing)).map Prod.fst)) := by
  refine ⟨fun k hk => scheduledNotInExisting instances0 cfg existing hres k hk, ?_⟩
  unfold run_pipeline
  by_cases h1 : (_filter_instances instances0 cfg).isEmpty
  · rw [List.isEmpty_iff] at h1
    have hsched : scheduled instances0 cfg (some existing) = [] :=
      scheduled_empty_of_filter_empty instances0 cfg (some existing) h1
    refine ⟨existing, ?_, fun k _ => rfl, ?_⟩
    · simp [h1]
    · intro k
      rw [hsched]
      simp
  · rw [if_neg (by simp [h1])]
    by_cases h2 : (scheduled instances0 cfg (some existing)).isEmpty
    · rw [List.isEmpty_iff] at h2
      refine ⟨existing, ?_, fun k _ => rfl, ?_⟩
      · simp [h2]
      · intro k
        rw [h2]
        simp
    · rw [if_neg (by simp [List.isEmpty_iff] at h2 ⊢; exact h2)]
      rw [hres, load_existing_resume]
      refine ⟨_, rfl, ?_, ?_⟩
      · intro k hk
        have hnot : k ∉ (scheduled instances0 cfg (some existing)).map Prod.fst :=
          scheduledNotInExisting instances0 cfg existing hres k hk
        have hnotc : k ∉ completions := fun hc => hnot (hperm.mem_iff.mp hc)
        exact foldl_pipelineStep_not_mem oc completions existing k hnotc
      · intro k
        rw [foldl_pipelineStep_hasKey oc completions existing k, hperm.mem_iff]

theorem claim6_witness :
    (∀ k, pyHasKey c6Existing k = true →
        k ∉ (scheduled c6Instances c6Cfg (some c6Existing)).map Prod.fst)
    ∧ ∃ final, run_pipeline c6Instances c6Cfg (some c6Existing)
          (fun _ => TaskOutcome.agentFail) ["b"] = some final
        ∧ (∀ k, pyHasKey c6Existing k = true →
            pyLookup final k = pyLookup c6Existing k)
        ∧ (∀ k, pyHasKey final k = true ↔
            (pyHasKey c6Existing k = true
              ∨ k ∈ (scheduled c6Instances c6Cfg (some c6Existing)).map Prod.fst)) :=
  claim6_resume_semantics c6Instances c6Cfg c6Existing
    (fun _ => TaskOutcome.agentFail) ["b"] rfl (by decide)

/-- C8: an instance whose repository preparation fails gets the minimal
placeholder record holding only its `instance_id`, stored under its id in
the final mapping, and the run is not aborted: every other scheduled
instance still receives its own task's result. -/
theorem claim8_clone_failure_placeholder (instances0 : List (String × Json))
    (cfg : RunCfg) (outFile : Option (List (String × Json)))
    (oc : String → TaskOutcome) (completions : List String) (k : String)
    (hnd : ((scheduled instances0 cfg outFile).map Prod.fst).Nodup)
    (hperm : completions.Perm ((scheduled instances0 cfg outFile).map Prod.fst))
    (hk : k ∈ (scheduled instances0 cfg outFile).map Prod.fst)
    (hclone : oc k = TaskOutcome.cloneFail) :
    ∃ final, run_pipeline instances0 cfg outFile oc completions = some final
      ∧ pyLookup final k = some (Json.obj [("instance_id", Json.str k)])
      ∧ ∀ j, j ∈ (scheduled instances0 cfg outFile).map Prod.fst →
          pyLookup final j = some (process_instance j (oc j)).2 := by
  have hndc : completions.Nodup := hperm.nodup_iff.mpr hnd
  have hne : ¬ (scheduled instances0 cfg outFile).isEmpty = true := by
    intro h
    rw [List.isEmpty_iff] at h
    rw [h] at hk
    simp at hk
  have hfil : ¬ (_filter_instances instances0 cfg).isEmpty = true := by
    intro h
    rw [List.isEmpty_iff] at h
    rw [scheduled_empty_of_filter_empty instances0 cfg outFile h] at hk
    simp at hk
  unfold run_pipeline
  rw [if_neg hfil, if_neg hne]
  refine ⟨_, rfl, ?_, ?_⟩
  · have hkc : k ∈ completions := hperm.mem_iff.mpr hk
    rw [foldl_pipelineStep_lookup_mem oc completions _ k hndc hkc, hclone]
    rfl
  · intro j hj
    exact foldl_pipelineStep_lookup_mem oc completions _ j hndc (hperm.mem_iff.mpr hj)

theorem claim8_witness :
    ∃ final, run_pipeline c8Instances c8Cfg none c8Oc ["y", "x"] = some final
      ∧ pyLookup final "x" = some (Json.obj [("instance_id", Json.str "x")])
      ∧ ∀ j, j ∈ (scheduled c8Instances c8Cfg none).map Prod.fst →
          pyLookup final j = some (process_instance j (c8Oc j)).2 :=
  claim8_clone_failure_placeholder c8Instances c8Cfg none c8Oc ["y", "x"] "x"
    (by decide) (by decide) (by decide) rfl

/-- C9 counterexample: on a no-prefix diff the claim prescribes the
stripped source path (`o.txt`), but the code drops every entry that does
not start with `a/` and returns nothing. -/
theorem claim9_counterexample :
    get_modified_files c9Patch = []
    ∧ get_modified_files_claim c9Patch = ["o.txt"]
    ∧ get_modified_files c9Patch ≠ get_modified_files_claim c9Patch := by
  refine ⟨rfl, rfl, ?_⟩
  decide

/-- C9 amended: for every unified-diff test patch, the touched-file
extraction returns exactly the file paths of diff entries whose source
side is not `/dev/null` and starts with the two-character prefix `a/`,
each normalized by stripping that prefix. -/
theorem claim9_touched_files (patch : String) :
    get_modified_files patch = get_modified_files_amended patch := by
  unfold get_modified_files get_modified_files_amended
  by_cases h : pyStrip patch = ""
  · rw [if_pos h, if_pos h]
  · rw [if_neg h, if_neg h, List.filter_filter]
    refine congrArg _ (List.filter_congr ?_)
    intro x _
    rw [Bool.and_comm]
